import Mathlib

/-! # POLITEC forensic-video analysis client: a shallow embedding

The repository ships three variants of `src/frontend/src/App.tsx`:

* a job-polling client (`pollJobStatus` / `handleAnalyze`): uploads the video,
  receives a job id, and polls `GET /api/jobs/{id}/status` until a terminal
  status, fetching `GET /api/jobs/{id}` only then;
* a synchronous axios client (`POST /analyze` returns the full report);
* a synchronous fetch client talking to `http://127.0.0.1:8000/analyze`.

The React state of the polling client is embedded as an explicit state record
and a step function over the events its handlers and callbacks react to.
JavaScript string truthiness (empty string is falsy) and the `||` default
operator are modelled explicitly, since the source relies on both.

The backend job pipeline is not among the repository's source files (only the
client is); where a claim concerns it, the state machine is modelled from the
spec and is marked as such. -/

/-- JavaScript truthiness of an optional string value: `undefined`/`null`
(here `none`) and the empty string are falsy, every other string is truthy. -/
def jsTruthy : Option String → Bool
  | none => false
  | some s => s != ""

/-- JavaScript `a || b` for an optional string `a`: `a`'s value when it is
present and non-empty, otherwise `b`. -/
def jsOrElse (o : Option String) (d : String) : String :=
  if jsTruthy o then o.getD d else d

/-- JavaScript `String.prototype.toLowerCase`, character by character (the
basic latin range, which covers the classification keywords). -/
def toLowerCase (s : String) : String :=
  String.mk (s.toList.map Char.toLower)

/-- JavaScript `String.prototype.includes`: `pat` occurs contiguously in `s`. -/
def strIncludes (s pat : String) : Bool :=
  (List.range (s.toList.length + 1)).any fun i => pat.toList.isPrefixOf (s.toList.drop i)

/-- `pat` occurs as a contiguous substring of `s`: the specification-level
reading of "the string contains the word", stated independently of the
search loop in `strIncludes`. -/
def HasSubstr (s pat : String) : Prop :=
  ∃ l r, s.toList = l ++ pat.toList ++ r

/-- The shadcn badge variants the clients select between. -/
inductive BadgeVariant
  | destructive
  | success
  | secondary
  | default
deriving DecidableEq

/-- The job lifecycle states (`JobStatus.status` in App.tsx: the union type
pending | processing | completed | failed). -/
inductive Status
  | pending
  | processing
  | completed
  | failed
deriving DecidableEq

/-- The body of `GET /api/jobs/{id}/status` as the polling client reads it
(interface `JobStatus` in App.tsx). -/
structure JobStatus where
  job_id : String
  status : Status
  progress : Option String
  error : Option String

/-- One entry of `caracteristicas` (the spec's Evidence sub-entry). -/
structure Evidence where
  objeto : String
  observacao_objeto : String
  observacao_narrada : String
  tempo_inicio : String
  tempo_fim : String
  melhor_frame : String
  imagem : Option String
deriving DecidableEq

/-- Interface `ForensicResult` of App.tsx (the spec's AnalysisEntry). -/
structure ForensicResult where
  resultado_analise : String
  objeto : String
  observacao_objeto : String
  observacao_narrada : String
  tempo_inicio : String
  tempo_fim : String
  melhor_frame : String
  imagem : Option String
  caracteristicas : List Evidence
deriving DecidableEq

/-- The body of `GET /api/jobs/{id}`: the polling client reads only the
`result` field of this record (`data.result`); an absent or null field is
`none`, and JavaScript truthiness of an array value coincides with `isSome`. -/
structure JobRecord where
  result : Option (List ForensicResult)

namespace Politec.Poll

/-- The HTTP requests one `pollJobStatus(id)` invocation can issue:
`GET /api/jobs/{id}/status` and `GET /api/jobs/{id}`. -/
inductive ApiRequest
  | statusEndpoint (id : String)
  | jobEndpoint (id : String)
deriving DecidableEq

/-- The React state of the polling client (`useState` hooks plus the two
pieces of implicit control state: whether the upload request of
`handleAnalyze` is in flight, and whether the polling interval is set). -/
structure ClientState where
  file : Bool
  loading : Bool
  result : Option (List ForensicResult)
  error : Option String
  progress : ℚ
  showProgress : Bool
  statusMessage : String
  jobId : Option String
  polling : Bool
  inflight : Bool

/-- The shape `handleAnalyze`'s catch block reads off an axios error:
`code`, `response?.data?.detail` and `message`. -/
structure AxiosError where
  code : Option String
  detail : Option String
  message : Option String

/-- The error-message selection of `handleAnalyze`'s catch block (polling
variant). The `detail` and `message` tests are JavaScript truthiness tests,
so an empty string falls through to the next alternative. -/
def submitErrorMessage (e : AxiosError) : String :=
  if e.code = some "ECONNABORTED" then
    "Tempo limite excedido no upload. Tente um vídeo menor."
  else if e.code = some "ERR_NETWORK" then
    "Erro de conexão. Verifique se o backend está rodando."
  else if jsTruthy e.detail then
    e.detail.getD ""
  else if jsTruthy e.message then
    e.message.getD ""
  else
    "Erro ao enviar o vídeo."

/-- The selection rule exactly as claim C8 words it: the `detail` field is
shown whenever present, then the error's own `message` whenever present.
Stated only to compare against `submitErrorMessage`. -/
def submitErrorMessageAsClaimed (e : AxiosError) : String :=
  if e.code = some "ECONNABORTED" then
    "Tempo limite excedido no upload. Tente um vídeo menor."
  else if e.code = some "ERR_NETWORK" then
    "Erro de conexão. Verifique se o backend está rodando."
  else
    match e.detail with
    | some d => d
    | none =>
      match e.message with
      | some m => m
      | none => "Erro ao enviar o vídeo."

/-- `finishProgress`: stop polling and set the bar to 100 (the scheduled
800ms hide callback is the separate `progressHide` event). -/
def finishProgress (st : ClientState) : ClientState :=
  { st with polling := false, progress := 100 }

/-- One `pollJobStatus(id)` invocation on a successful status response
`resp`; `rec` is what `GET /api/jobs/{id}` returns when the completed branch
fetches it. Returns the new client state and the requests issued, in order.
The branches net the source's sequence of `set` calls: the status message
default uses `status.progress || 'Processando...'`, the completed branch
stops polling, fetches the record, keeps `result` or sets the empty-result
error, and ends in `finishProgress`; the failed branch stops polling, sets
`status.error || 'Erro desconhecido durante o processamento.'` and also ends
in `finishProgress`. -/
def pollJobStatus (id : String) (st : ClientState) (resp : JobStatus) (rec : JobRecord) :
    ClientState × List ApiRequest :=
  let base := { st with statusMessage := jsOrElse resp.progress "Processando..." }
  match resp.status with
  | Status.pending =>
      ({ base with progress := max base.progress 35 }, [ApiRequest.statusEndpoint id])
  | Status.processing =>
      ({ base with progress := min (base.progress + 2) 85 }, [ApiRequest.statusEndpoint id])
  | Status.completed =>
      let fetched := { base with polling := false,
                                 statusMessage := "Carregando resultado...",
                                 progress := 95 }
      let updated :=
        match rec.result with
        | some r => { fetched with result := some r }
        | none => { fetched with error := some "Resultado vazio retornado pela API." }
      (finishProgress { updated with loading := false },
       [ApiRequest.statusEndpoint id, ApiRequest.jobEndpoint id])
  | Status.failed =>
      (finishProgress
         { base with polling := false,
                     error := some (jsOrElse resp.error
                       "Erro desconhecido durante o processamento."),
                     loading := false },
       [ApiRequest.statusEndpoint id])

/-- The events the polling client reacts to: choosing a file, clicking the
analyze button, upload-progress callbacks, the submission resolving or
rejecting, one poll tick resolving, and the scheduled progress-bar hide. -/
inductive Event
  | selectFile
  | clickAnalyze
  | uploadProgress (percent : ℕ)
  | submitOk (job_id : String)
  | submitErr (e : AxiosError)
  | poll (resp : JobStatus) (rec : JobRecord)
  | progressHide

/-- One event of the polling client. `clickAnalyze` is guarded the way the
button is (`disabled={!file || loading}`); upload callbacks and the
submission outcome only apply while the upload is in flight; a poll tick
only applies while the interval is set (`stopPolling` clears it). -/
def step (st : ClientState) : Event → ClientState
  | Event.selectFile => { st with file := true, error := none }
  | Event.clickAnalyze =>
      if st.file = true ∧ st.loading = false then
        { st with progress := 0, showProgress := true, loading := true,
                  error := none, result := none, jobId := none,
                  statusMessage := "Enviando vídeo...", inflight := true }
      else st
  | Event.uploadProgress percent =>
      if st.inflight = true then
        { st with progress := min ((percent : ℚ) * (3 / 10)) 30,
                  statusMessage := "Enviando vídeo... " ++ toString percent ++ "%" }
      else st
  | Event.submitOk job_id =>
      if st.inflight = true then
        { st with inflight := false, jobId := some job_id, progress := 35,
                  statusMessage := "Análise iniciada, aguardando processamento...",
                  polling := true }
      else st
  | Event.submitErr e =>
      if st.inflight = true then
        finishProgress { st with inflight := false, loading := false,
                                 error := some (submitErrorMessage e) }
      else st
  | Event.poll resp rec =>
      if st.polling = true then (pollJobStatus (st.jobId.getD "") st resp rec).1 else st
  | Event.progressHide =>
      { st with showProgress := false, progress := 0, statusMessage := "" }

/-- The initial React state: no file, nothing loading, no result, no error. -/
def initState : ClientState :=
  { file := false, loading := false, result := none, error := none, progress := 0,
    showProgress := false, statusMessage := "", jobId := none, polling := false,
    inflight := false }

/-- The client state after a sequence of events from the initial state. -/
def run (evts : List Event) : ClientState :=
  evts.foldl step initState

/-- The report section is rendered exactly when the `result` state is
non-null (`{result && ...}` in the JSX). -/
def rendersReport (st : ClientState) : Bool :=
  st.result.isSome

/-- `getResultBadgeVariant` of the polling variant. -/
def getResultBadgeVariant (resultado : String) : BadgeVariant :=
  let lower := toLowerCase resultado
  if strIncludes lower "positivo" then BadgeVariant.destructive
  else if strIncludes lower "negativo" then BadgeVariant.success
  else BadgeVariant.secondary

/-- What the evidence tab body shows: the grid of evidence cards, or the
fixed no-evidence message. -/
inductive EvidenceTabContent
  | grid (cards : List Evidence)
  | message (text : String)

/-- The rendered evidence tab of one `ForensicResult` card: the count in the
tab label and the tab body. -/
structure EvidenceTab where
  shownCount : ℕ
  content : EvidenceTabContent

/-- The evidence tab as the JSX renders it: the label shows
`item.caracteristicas.length`; the body is the card grid when that list is
non-empty and the fixed message otherwise. -/
def renderEvidenceTab (item : ForensicResult) : EvidenceTab :=
  { shownCount := item.caracteristicas.length,
    content :=
      if item.caracteristicas.length > 0 then EvidenceTabContent.grid item.caracteristicas
      else EvidenceTabContent.message "Nenhuma evidência física detectada." }

/-- The run invariant of the polling client: while the upload is in flight
the client is loading, not polling, shows no result or error, and the bar is
at most 30; while polling, likewise with the bar at most 85; and a shown
result excludes a shown error. -/
def Inv (st : ClientState) : Prop :=
  (st.inflight = true → st.loading = true ∧ st.polling = false ∧
      st.error = none ∧ st.result = none ∧ st.progress ≤ 30) ∧
  (st.polling = true → st.loading = true ∧ st.inflight = false ∧
      st.error = none ∧ st.result = none ∧ st.progress ≤ 85) ∧
  (st.result.isSome = true → st.error = none)

/-- A concrete mid-polling state (right after a successful submission). -/
def pollingState : ClientState :=
  { initState with loading := true, polling := true, jobId := some "job-1",
                   progress := 35, showProgress := true }

end Politec.Poll

namespace Politec.Sync

/-- `getResultBadgeVariant` of the synchronous axios variant. -/
def getResultBadgeVariant (resultado : String) : BadgeVariant :=
  let lower := toLowerCase resultado
  if strIncludes lower "positivo" then BadgeVariant.destructive
  else if strIncludes lower "negativo" then BadgeVariant.success
  else BadgeVariant.secondary

end Politec.Sync

namespace Politec.Fetch

/-- `getResultBadgeVariant` of the synchronous fetch variant: this one
returns the `default` variant for a negative outcome. -/
def getResultBadgeVariant (resultado : String) : BadgeVariant :=
  let lower := toLowerCase resultado
  if strIncludes lower "positivo" then BadgeVariant.destructive
  else if strIncludes lower "negativo" then BadgeVariant.default
  else BadgeVariant.secondary

end Politec.Fetch

namespace Politec.Backend

/-- Modelled from the spec: the Job Pipeline state machine of section 4.2
(the backend itself is not among the repository's source files; only the
client is). Transitions: pending to processing on dequeue, processing to
completed on success, processing to failed on a stage failure, pending to
failed when the job never started; completed and failed are terminal, with
no transition out of them. -/
inductive JobTrans : Status → Status → Prop
  | dequeue : JobTrans Status.pending Status.processing
  | complete : JobTrans Status.processing Status.completed
  | failRun : JobTrans Status.processing Status.failed
  | failEarly : JobTrans Status.pending Status.failed

/-- Rank of a status in the order pending, processing, terminal. -/
def statusRank : Status → ℕ
  | Status.pending => 0
  | Status.processing => 1
  | Status.completed => 2
  | Status.failed => 2

/-- Whether a status is terminal. -/
def isTerminal : Status → Bool
  | Status.completed => true
  | Status.failed => true
  | _ => false

/-- Modelled from the spec: what a later poll can return after a poll
returned `s` — the job after zero or more pipeline transitions. -/
def Observes (s t : Status) : Prop :=
  Relation.ReflTransGen JobTrans s t

end Politec.Backend

/-! ## Helper lemmas -/

theorem strIncludes_iff (s pat : String) : strIncludes s pat = true ↔ HasSubstr s pat := by
  unfold strIncludes HasSubstr
  rw [List.any_eq_true]
  constructor
  · rintro ⟨i, _, hpre⟩
    rw [List.isPrefixOf_iff_prefix] at hpre
    obtain ⟨t, ht⟩ := hpre
    refine ⟨s.toList.take i, t, ?_⟩
    conv_lhs => rw [← List.take_append_drop i s.toList]
    rw [← ht, List.append_assoc]
  · rintro ⟨l, r, hs⟩
    refine ⟨l.length, ?_, ?_⟩
    · rw [List.mem_range, hs]
      simp only [List.length_append]
      omega
    · rw [List.isPrefixOf_iff_prefix, hs, List.append_assoc, List.drop_left]
      exact ⟨r, rfl⟩

theorem strIncludes_eq_false_iff (s pat : String) :
    strIncludes s pat = false ↔ ¬ HasSubstr s pat := by
  rw [← strIncludes_iff]
  cases strIncludes s pat <;> simp

open Politec.Poll Politec.Backend

theorem Inv_initState : Inv initState := by
  refine ⟨fun hf => ?_, fun hp => ?_, fun hr => ?_⟩ <;> simp [initState] at *

theorem Inv_step (st : ClientState) (e : Event) (h : Inv st) : Inv (step st e) := by
  obtain ⟨hin, hpo, hex⟩ := h
  cases e with
  | selectFile =>
      refine ⟨fun hf => ?_, fun hp => ?_, fun hr => ?_⟩
      · obtain ⟨h1, h2, _, h4, h5⟩ := hin hf
        exact ⟨h1, h2, rfl, h4, h5⟩
      · obtain ⟨h1, h2, _, h4, h5⟩ := hpo hp
        exact ⟨h1, h2, rfl, h4, h5⟩
      · exact rfl
  | clickAnalyze =>
      by_cases hc : st.file = true ∧ st.loading = false
      · simp only [step, if_pos hc]
        refine ⟨fun _ => ?_, fun hp => ?_, fun hr => ?_⟩
        · refine ⟨rfl, ?_, rfl, rfl, by norm_num⟩
          cases hq : st.polling
          · rfl
          · exact absurd (hpo hq).1 (by simp [hc.2])
        · exact absurd (hpo hp).1 (by simp [hc.2])
        · simp at hr
      · simp only [step, if_neg hc]
        exact ⟨hin, hpo, hex⟩
  | uploadProgress percent =>
      by_cases hb : st.inflight = true
      · simp only [step, if_pos hb]
        obtain ⟨h1, h2, h3, h4, _⟩ := hin hb
        refine ⟨fun _ => ⟨h1, h2, h3, h4, min_le_right _ _⟩, fun hp => ?_, fun hr => ?_⟩
        · exact absurd hb (by simp [(hpo hp).2.1])
        · exact hex hr
      · simp only [step, if_neg hb]
        exact ⟨hin, hpo, hex⟩
  | submitOk job_id =>
      by_cases hb : st.inflight = true
      · simp only [step, if_pos hb]
        obtain ⟨h1, _, h3, h4, _⟩ := hin hb
        refine ⟨fun hf => ?_, fun _ => ⟨h1, rfl, h3, h4, by norm_num⟩, fun hr => ?_⟩
        · simp at hf
        · exact hex hr
      · simp only [step, if_neg hb]
        exact ⟨hin, hpo, hex⟩
  | submitErr e =>
      by_cases hb : st.inflight = true
      · simp only [step, if_pos hb, finishProgress]
        obtain ⟨_, _, _, h4, _⟩ := hin hb
        refine ⟨fun hf => ?_, fun hp => ?_, fun hr => ?_⟩
        · simp at hf
        · simp at hp
        · rw [h4] at hr
          simp at hr
      · simp only [step, if_neg hb]
        exact ⟨hin, hpo, hex⟩
  | poll resp rec =>
      by_cases hb : st.polling = true
      · obtain ⟨g1, g2, g3, g4, g5⟩ := hpo hb
        simp only [step, if_pos hb]
        obtain ⟨jid, sst, prog, perr⟩ := resp
        cases sst with
        | pending =>
            simp only [pollJobStatus]
            refine ⟨fun hf => ?_, fun _ => ⟨g1, g2, g3, g4, ?_⟩, fun hr => ?_⟩
            · exact absurd hf (by simp [g2])
            · exact max_le g5 (by norm_num)
            · exact hex hr
        | processing =>
            simp only [pollJobStatus]
            refine ⟨fun hf => ?_, fun _ => ⟨g1, g2, g3, g4, min_le_right _ _⟩, fun hr => ?_⟩
            · exact absurd hf (by simp [g2])
            · exact hex hr
        | completed =>
            simp only [pollJobStatus, finishProgress]
            cases hrec : rec.result with
            | some r =>
                simp only [hrec]
                refine ⟨fun hf => ?_, fun hp => ?_, fun _ => g3⟩
                · exact absurd hf (by simp [g2])
                · simp at hp
            | none =>
                simp only [hrec]
                refine ⟨fun hf => ?_, fun hp => ?_, fun hr => ?_⟩
                · exact absurd hf (by simp [g2])
                · simp at hp
                · rw [g4] at hr
                  simp at hr
        | failed =>
            simp only [pollJobStatus, finishProgress]
            refine ⟨fun hf => ?_, fun hp => ?_, fun hr => ?_⟩
            · exact absurd hf (by simp [g2])
            · simp at hp
            · rw [g4] at hr
              simp at hr
      · simp only [step, if_neg hb]
        exact ⟨hin, hpo, hex⟩
  | progressHide =>
      refine ⟨fun hf => ?_, fun hp => ?_, fun hr => ?_⟩
      · obtain ⟨h1, h2, h3, h4, _⟩ := hin hf
        exact ⟨h1, h2, h3, h4, by simp only [step]; norm_num⟩
      · obtain ⟨h1, h2, h3, h4, _⟩ := hpo hp
        exact ⟨h1, h2, h3, h4, by simp only [step]; norm_num⟩
      · exact hex hr

theorem Inv_run (evts : List Event) : Inv (run evts) := by
  have general : ∀ (l : List Event) (st : ClientState), Inv st → Inv (l.foldl step st) := by
    intro l
    induction l with
    | nil => exact fun st h => h
    | cons e rest ih => exact fun st h => ih (step st e) (Inv_step st e h)
  exact general evts initState Inv_initState

/-! ## Claims -/

/-- Claim C1: a `pollJobStatus` invocation issues the full-job-record request
`GET /api/jobs/{id}` exactly when the status response is `completed`; while
the observed status is `pending` or `processing` it issues only the
lightweight status request `GET /api/jobs/{id}/status`. -/
theorem claim_C1_full_record_only_on_completed (id : String) (st : ClientState)
    (resp : JobStatus) (rec : JobRecord) :
    (ApiRequest.jobEndpoint id ∈ (pollJobStatus id st resp rec).2 ↔
       resp.status = Status.completed) ∧
    (resp.status = Status.pending ∨ resp.status = Status.processing →
       (pollJobStatus id st resp rec).2 = [ApiRequest.statusEndpoint id]) := by
  obtain ⟨jid, sst, prog, perr⟩ := resp
  cases sst <;> simp [pollJobStatus]

/-- Claim C2 counterexample: a failed status response whose `error` field is
present but empty. The claim as stated says the client displays the job's
error string (here the empty string); the code's `status.error || default`
displays the fixed default message instead. -/
theorem claim_C2_counterexample :
    ((pollJobStatus "job-1" pollingState
        { job_id := "job-1", status := Status.failed, progress := none, error := some "" }
        { result := none }).1).error
      = some "Erro desconhecido durante o processamento." ∧
    (some "" : Option String) ≠ some "Erro desconhecido durante o processamento." := by
  exact ⟨rfl, by decide⟩

/-- Claim C2 (amended): on a `failed` status poll the client stops polling,
ends the loading state, displays the job's error string when it is present
and non-empty — and the fixed default message when it is absent or empty —
and displays no result for that run. -/
theorem claim_C2_failed_poll (id : String) (st : ClientState) (resp : JobStatus)
    (rec : JobRecord) (hfail : resp.status = Status.failed) (hres : st.result = none) :
    ((pollJobStatus id st resp rec).1).polling = false ∧
    ((pollJobStatus id st resp rec).1).loading = false ∧
    (∀ s, resp.error = some s → s ≠ "" →
       ((pollJobStatus id st resp rec).1).error = some s) ∧
    (resp.error = none ∨ resp.error = some "" →
       ((pollJobStatus id st resp rec).1).error =
         some "Erro desconhecido durante o processamento.") ∧
    ((pollJobStatus id st resp rec).1).result = none ∧
    rendersReport (pollJobStatus id st resp rec).1 = false := by
  obtain ⟨jid, sst, prog, perr⟩ := resp
  simp only at hfail
  subst hfail
  refine ⟨rfl, rfl, ?_, ?_, hres, ?_⟩
  · intro s hs hne
    subst hs
    simp [pollJobStatus, finishProgress, jsOrElse, jsTruthy, hne]
  · rintro (hn | hn) <;> subst hn <;>
      simp [pollJobStatus, finishProgress, jsOrElse, jsTruthy]
  · simp [rendersReport, pollJobStatus, finishProgress, hres]

/-- Witness for the amended C2 at a concrete failed poll with a non-empty
error string. -/
theorem claim_C2_failed_poll_witness :
    ((pollJobStatus "job-1" pollingState
        { job_id := "job-1", status := Status.failed, progress := none,
          error := some "Falha na extração" }
        { result := none }).1).error = some "Falha na extração" :=
  (claim_C2_failed_poll "job-1" pollingState
      { job_id := "job-1", status := Status.failed, progress := none,
        error := some "Falha na extração" }
      { result := none } rfl rfl).2.2.1 "Falha na extração" rfl (by decide)

/-- Claim C3: when a status poll returns `completed` but the fetched full
record has no `result` field, the client sets the fixed empty-result error
message and renders no report; the report is rendered exactly when the
completed record carries a result. -/
theorem claim_C3_completed_requires_result (id : String) (st : ClientState)
    (resp : JobStatus) (rec : JobRecord) (hc : resp.status = Status.completed)
    (hres : st.result = none) :
    (rec.result = none →
       ((pollJobStatus id st resp rec).1).error =
         some "Resultado vazio retornado pela API." ∧
       ((pollJobStatus id st resp rec).1).result = none ∧
       rendersReport (pollJobStatus id st resp rec).1 = false) ∧
    (∀ r, rec.result = some r → ((pollJobStatus id st resp rec).1).result = some r) ∧
    (rendersReport (pollJobStatus id st resp rec).1 = true ↔ rec.result.isSome = true) := by
  obtain ⟨jid, sst, prog, perr⟩ := resp
  simp only at hc
  subst hc
  obtain ⟨res⟩ := rec
  refine ⟨?_, ?_, ?_⟩
  · intro hr
    subst hr
    simp [pollJobStatus, finishProgress, hres, rendersReport]
  · intro r hr
    subst hr
    simp [pollJobStatus, finishProgress]
  · cases res with
    | none => simp [pollJobStatus, finishProgress, rendersReport, hres]
    | some r => simp [pollJobStatus, finishProgress, rendersReport]

/-- Witness for C3 at a concrete completed poll whose record is empty. -/
theorem claim_C3_completed_requires_result_witness :
    ((pollJobStatus "job-1" pollingState
        { job_id := "job-1", status := Status.completed, progress := none, error := none }
        { result := none }).1).error = some "Resultado vazio retornado pela API." :=
  ((claim_C3_completed_requires_result "job-1" pollingState
      { job_id := "job-1", status := Status.completed, progress := none, error := none }
      { result := none } rfl rfl).1 rfl).1

/-- Claim C4 (the backend pipeline is modelled from the spec): across what
repeated polling can observe, the status rank through
pending → processing → terminal never decreases, and once a terminal status
has been returned every later poll returns that same status. -/
theorem claim_C4_status_monotone (s t : Status) (h : Observes s t) :
    statusRank s ≤ statusRank t ∧ (isTerminal s = true → t = s) := by
  induction h with
  | refl => exact ⟨Nat.le_refl _, fun _ => rfl⟩
  | tail hab hbc ih =>
      obtain ⟨hrank, hterm⟩ := ih
      constructor
      · refine Nat.le_trans hrank ?_
        cases hbc <;> decide
      · intro ht
        have hb := hterm ht
        subst hb
        cases hbc <;> simp [isTerminal] at ht

/-- Witness for C4 along the concrete observation pending, then completed. -/
theorem claim_C4_status_monotone_witness :
    statusRank Status.pending ≤ statusRank Status.completed ∧
    (isTerminal Status.pending = true → Status.completed = Status.pending) :=
  claim_C4_status_monotone Status.pending Status.completed
    (Relation.ReflTransGen.tail (Relation.ReflTransGen.single JobTrans.dequeue)
      JobTrans.complete)

/-- Claim C5: classification of an outcome string is by case-insensitive
substring match, with positive taking precedence: destructive exactly when
the lowercased string contains "positivo", else success exactly when it
contains "negativo", else secondary. -/
theorem claim_C5_badge_classification (s : String) :
    (Politec.Poll.getResultBadgeVariant s = BadgeVariant.destructive ↔
       HasSubstr (toLowerCase s) "positivo") ∧
    (Politec.Poll.getResultBadgeVariant s = BadgeVariant.success ↔
       (¬ HasSubstr (toLowerCase s) "positivo" ∧ HasSubstr (toLowerCase s) "negativo")) ∧
    (Politec.Poll.getResultBadgeVariant s = BadgeVariant.secondary ↔
       (¬ HasSubstr (toLowerCase s) "positivo" ∧
        ¬ HasSubstr (toLowerCase s) "negativo")) := by
  have hp := strIncludes_iff (toLowerCase s) "positivo"
  have hn := strIncludes_iff (toLowerCase s) "negativo"
  cases h1 : strIncludes (toLowerCase s) "positivo" <;>
    cases h2 : strIncludes (toLowerCase s) "negativo" <;>
      simp [h1, h2] at hp hn <;>
        simp [Politec.Poll.getResultBadgeVariant, h1, h2, hp, hn]

/-- Claim C6 counterexample: on the outcome "negativo" the fetch variant
returns a different badge variant than the polling variant. -/
theorem claim_C6_counterexample :
    Politec.Fetch.getResultBadgeVariant "negativo" ≠
      Politec.Poll.getResultBadgeVariant "negativo" := by
  decide

/-- Claim C6 (amended): the polling variant and the synchronous axios
variant classify every outcome string identically; the synchronous fetch
variant agrees except that it returns the default variant exactly where the
other two return success (a negative outcome without a positive one). -/
theorem claim_C6_variants_amended (s : String) :
    Politec.Sync.getResultBadgeVariant s = Politec.Poll.getResultBadgeVariant s ∧
    Politec.Fetch.getResultBadgeVariant s =
      (if Politec.Poll.getResultBadgeVariant s = BadgeVariant.success then
         BadgeVariant.default
       else Politec.Poll.getResultBadgeVariant s) := by
  refine ⟨rfl, ?_⟩
  cases h1 : strIncludes (toLowerCase s) "positivo" <;>
    cases h2 : strIncludes (toLowerCase s) "negativo" <;>
      simp [Politec.Fetch.getResultBadgeVariant, Politec.Poll.getResultBadgeVariant, h1, h2]

/-- Claim C7: the count in the evidence tab label is the length of the
entry's `caracteristicas` list; an empty list renders the fixed no-evidence
message, a non-empty one the card grid, and the two renderings are distinct. -/
theorem claim_C7_evidence_tab (item : ForensicResult) :
    (renderEvidenceTab item).shownCount = item.caracteristicas.length ∧
    (item.caracteristicas = [] →
       (renderEvidenceTab item).content =
         EvidenceTabContent.message "Nenhuma evidência física detectada.") ∧
    (item.caracteristicas ≠ [] →
       (renderEvidenceTab item).content = EvidenceTabContent.grid item.caracteristicas) ∧
    (∀ cards, EvidenceTabContent.message "Nenhuma evidência física detectada." ≠
       EvidenceTabContent.grid cards) := by
  refine ⟨rfl, ?_, ?_, ?_⟩
  · intro hnil
    simp [renderEvidenceTab, hnil]
  · intro hne
    have hpos : 0 < item.caracteristicas.length := List.length_pos.mpr hne
    simp [renderEvidenceTab, hpos]
  · intro cards
    simp

/-- Claim C8 counterexample: a submission error whose server `detail` field
is present but empty. The claim as stated selects the detail (the empty
string); the code's truthiness test skips it and shows the error's own
message. -/
theorem claim_C8_counterexample :
    submitErrorMessageAsClaimed
        { code := none, detail := some "", message := some "Request failed" } = "" ∧
    submitErrorMessage
        { code := none, detail := some "", message := some "Request failed" }
      = "Request failed" ∧
    ("" : String) ≠ "Request failed" := by
  exact ⟨rfl, rfl, by decide⟩

/-- Claim C8 (amended): the displayed submission error is selected by fixed
precedence — ECONNABORTED gives the upload-timeout message, then ERR_NETWORK
the connection message, then the server's `detail` when present and
non-empty, then the error's own `message` when present and non-empty, then
the generic default. -/
theorem claim_C8_message_precedence (e : AxiosError) :
    (e.code = some "ECONNABORTED" →
       submitErrorMessage e = "Tempo limite excedido no upload. Tente um vídeo menor.") ∧
    (e.code ≠ some "ECONNABORTED" → e.code = some "ERR_NETWORK" →
       submitErrorMessage e = "Erro de conexão. Verifique se o backend está rodando.") ∧
    (e.code ≠ some "ECONNABORTED" → e.code ≠ some "ERR_NETWORK" →
       ∀ d, e.detail = some d → d ≠ "" → submitErrorMessage e = d) ∧
    (e.code ≠ some "ECONNABORTED" → e.code ≠ some "ERR_NETWORK" →
       (e.detail = none ∨ e.detail = some "") →
       ∀ m, e.message = some m → m ≠ "" → submitErrorMessage e = m) ∧
    (e.code ≠ some "ECONNABORTED" → e.code ≠ some "ERR_NETWORK" →
       (e.detail = none ∨ e.detail = some "") →
       (e.message = none ∨ e.message = some "") →
       submitErrorMessage e = "Erro ao enviar o vídeo.") := by
  obtain ⟨c, d, m⟩ := e
  refine ⟨?_, ?_, ?_, ?_, ?_⟩
  · intro hc
    simp only at hc
    subst hc
    simp [submitErrorMessage]
  · intro hc1 hc2
    simp only at hc1 hc2
    subst hc2
    simp [submitErrorMessage]
  · intro hc1 hc2 dd hd hne
    simp only at hc1 hc2 hd
    subst hd
    simp [submitErrorMessage, jsTruthy, hc1, hc2, hne]
  · intro hc1 hc2 hd mm hm hmne
    simp only at hc1 hc2 hd hm
    subst hm
    rcases hd with h | h <;> subst h <;>
      simp [submitErrorMessage, jsTruthy, hc1, hc2, hmne]
  · intro hc1 hc2 hd hm
    simp only at hc1 hc2 hd hm
    rcases hd with h | h <;> rcases hm with h2 | h2 <;> subst h <;> subst h2 <;>
      simp [submitErrorMessage, jsTruthy, hc1, hc2]

/-- Claim C9: within a run the progress bar is driven by capped updates —
each upload update is capped at 30, a pending poll sets the maximum of the
previous value and 35, a processing poll adds 2 capped at 85; while the
upload is in flight or polling is active it never exceeds 85; it is 100 only
once no upload is in flight and polling has stopped (a terminal status or a
submission error was handled by `finishProgress`, which sets it to 100), and
the scheduled hide resets it to 0. -/
theorem claim_C9_progress_bounds :
    (∀ (st : ClientState) (percent : ℕ), st.inflight = true →
       (step st (Event.uploadProgress percent)).progress ≤ 30) ∧
    (∀ (st : ClientState) (resp : JobStatus) (rec : JobRecord), st.polling = true →
       resp.status = Status.pending →
       (step st (Event.poll resp rec)).progress = max st.progress 35 ∧
       st.progress ≤ (step st (Event.poll resp rec)).progress) ∧
    (∀ (st : ClientState) (resp : JobStatus) (rec : JobRecord), st.polling = true →
       resp.status = Status.processing →
       (step st (Event.poll resp rec)).progress = min (st.progress + 2) 85 ∧
       (st.progress ≤ 85 →
          st.progress ≤ (step st (Event.poll resp rec)).progress ∧
          (step st (Event.poll resp rec)).progress ≤ 85)) ∧
    (∀ evts : List Event, (run evts).inflight = true ∨ (run evts).polling = true →
       (run evts).progress ≤ 85) ∧
    (∀ evts : List Event, (run evts).progress = 100 →
       (run evts).inflight = false ∧ (run evts).polling = false) ∧
    (∀ (st : ClientState) (resp : JobStatus) (rec : JobRecord), st.polling = true →
       (resp.status = Status.completed ∨ resp.status = Status.failed) →
       (step st (Event.poll resp rec)).progress = 100) ∧
    (∀ st : ClientState, (step st Event.progressHide).progress = 0) := by
  refine ⟨?_, ?_, ?_, ?_, ?_, ?_, ?_⟩
  · intro st percent h
    simp [step, h]
  · intro st resp rec hp hs
    obtain ⟨jid, sst, prog, perr⟩ := resp
    simp only at hs
    subst hs
    simp [step, hp, pollJobStatus]
  · intro st resp rec hp hs
    obtain ⟨jid, sst, prog, perr⟩ := resp
    simp only at hs
    subst hs
    have heq : (step st (Event.poll ⟨jid, Status.processing, prog, perr⟩ rec)).progress
        = min (st.progress + 2) 85 := by
      simp [step, hp, pollJobStatus]
    refine ⟨heq, fun h85 => ?_⟩
    rw [heq]
    exact ⟨le_min (by linarith) h85, min_le_right _ _⟩
  · intro evts h
    obtain ⟨hin, hpo, _⟩ := Inv_run evts
    rcases h with h | h
    · exact le_trans (hin h).2.2.2.2 (by norm_num)
    · exact (hpo h).2.2.2.2
  · intro evts h100
    obtain ⟨hin, hpo, _⟩ := Inv_run evts
    constructor
    · cases hf : (run evts).inflight with
      | false => rfl
      | true =>
          have := (hin hf).2.2.2.2
          rw [h100] at this
          norm_num at this
    · cases hf : (run evts).polling with
      | false => rfl
      | true =>
          have := (hpo hf).2.2.2.2
          rw [h100] at this
          norm_num at this
  · intro st resp rec hp hterm
    obtain ⟨jid, sst, prog, perr⟩ := resp
    rcases hterm with h | h <;> simp only at h <;> subst h <;>
      · cases hrec : rec.result <;>
          simp [step, hp, pollJobStatus, finishProgress, hrec]
  · intro st
    rfl

/-- Claim C10: in every reachable state of the polling client the result
state and the error state are never both non-null; starting an analysis
clears both, the completed branch sets exactly one of them, the failed
branch and the submission catch set the error while the result stays what it
was (null in a run), and selecting a new file clears only the error. -/
theorem claim_C10_result_error_exclusive :
    (∀ evts : List Event,
       (((run evts).result).isSome && ((run evts).error).isSome) = false) ∧
    (∀ st : ClientState, st.file = true → st.loading = false →
       (step st Event.clickAnalyze).result = none ∧
       (step st Event.clickAnalyze).error = none) ∧
    (∀ (st : ClientState) (resp : JobStatus) (rec : JobRecord)
       (r : List ForensicResult), st.polling = true → resp.status = Status.completed →
       (rec.result = some r →
          (step st (Event.poll resp rec)).result = some r ∧
          (step st (Event.poll resp rec)).error = st.error) ∧
       (rec.result = none →
          (step st (Event.poll resp rec)).error =
            some "Resultado vazio retornado pela API." ∧
          (step st (Event.poll resp rec)).result = st.result)) ∧
    (∀ (st : ClientState) (resp : JobStatus) (rec : JobRecord), st.polling = true →
       resp.status = Status.failed →
       ((step st (Event.poll resp rec)).error).isSome = true ∧
       (step st (Event.poll resp rec)).result = st.result) ∧
    (∀ (st : ClientState) (e : AxiosError), st.inflight = true →
       (step st (Event.submitErr e)).error = some (submitErrorMessage e) ∧
       (step st (Event.submitErr e)).result = st.result) ∧
    (∀ st : ClientState, (step st Event.selectFile).error = none ∧
       (step st Event.selectFile).result = st.result) := by
  refine ⟨?_, ?_, ?_, ?_, ?_, ?_⟩
  · intro evts
    obtain ⟨_, _, hex⟩ := Inv_run evts
    cases h : ((run evts).result).isSome with
    | false => simp
    | true => simp [hex h]
  · intro st hf hl
    constructor <;> simp [step, hf, hl]
  · intro st resp rec r hp hs
    obtain ⟨jid, sst, prog, perr⟩ := resp
    simp only at hs
    subst hs
    constructor
    · intro hr
      constructor <;> simp [step, hp, pollJobStatus, finishProgress, hr]
    · intro hr
      constructor <;> simp [step, hp, pollJobStatus, finishProgress, hr]
  · intro st resp rec hp hs
    obtain ⟨jid, sst, prog, perr⟩ := resp
    simp only at hs
    subst hs
    constructor <;> simp [step, hp, pollJobStatus, finishProgress]
  · intro st e h
    constructor <;> simp [step, h, finishProgress]
  · intro st
    exact ⟨rfl, rfl⟩
